import Mathlib

/-!
# SX1262 command/register codec layer — verification development

A shallow embedding, in Lean 4, of the byte-level codec layer of the SX1262
radio driver crate (`src/commands/rf.rs`, `src/commands/status.rs`,
`src/commands/dio.rs`, `src/registers/system.rs`), together with theorems
settling the frozen specification claims.

Conventions of the embedding:
* machine integers (`u8`, `u16`, `u32`, `u64`) are `Nat`s; wrapping casts are
  explicit `% 2^w`; byte values are `Nat`s below 256;
* a Rust `[u8; N]` wire array is a `List Nat` on the encode side and `N`
  separate byte arguments on the decode side (the array type fixes the arity);
* a fallible Rust function returns `Except`; a function that can panic
  (`unwrap` on an `Err`, integer division by zero, out-of-bounds indexing)
  returns `Option`, with `none` standing for the panic;
* `&mut self` methods returning `Result<(), E>` become functions returning
  the result paired with the post-state.
-/

deriving instance DecidableEq for Except

namespace SX1262

/-- Big-endian byte decomposition of a `u32` value (`u32::to_be_bytes`). -/
def u32BeBytes (x : Nat) : List Nat :=
  [x / 2 ^ 24 % 256, x / 2 ^ 16 % 256, x / 2 ^ 8 % 256, x % 256]

/-- Modelled from the spec: the big-endian byte pair of a `u16` value, the
`ToByteArray` impl for `u16` supplied by the external `regiface` crate
("a plain integer (big-endian fixed width)"). -/
def u16BeBytes (x : Nat) : List Nat :=
  [x / 2 ^ 8 % 256, x % 256]

/-! ## `src/commands/rf.rs` — RF frequency -/

/-- `RfFrequencyConfig` (rf.rs): the RF frequency in Hz, a `u32`. -/
structure RfFrequencyConfig where
  frequency : Nat
  deriving DecidableEq

/-- `RfFrequencyConfig::to_bytes` (rf.rs):
`let f = ((self.frequency as u64 * (1_u64 << 25)) / 32_000_000) as u32;
Ok(f.to_be_bytes())`.  The `u64` product is taken mod `2^64` and the
`as u32` cast mod `2^32`, exactly as in the source. -/
def RfFrequencyConfig.to_bytes (c : RfFrequencyConfig) : List Nat :=
  let f := c.frequency * 2 ^ 25 % 2 ^ 64 / 32000000 % 2 ^ 32
  u32BeBytes f

/-! ## `src/commands/rf.rs` — packet type -/

/-- `PacketType` (rf.rs): `Gfsk = 0x00`, `LoRa = 0x01`. -/
inductive PacketType
  | Gfsk
  | LoRa
  deriving DecidableEq

/-- The wire discriminant of a `PacketType` (the Rust enum's value). -/
def PacketType.code : PacketType → Nat
  | .Gfsk => 0x00
  | .LoRa => 0x01

/-- `PacketType::from_bytes` (rf.rs).  The error type is `Infallible`; the
match arm `_ => Self::LoRa` silently maps every unrecognized byte to
`LoRa`, so the function is total. -/
def PacketType.from_bytes (b : Nat) : PacketType :=
  if b = 0x00 then .Gfsk
  else if b = 0x01 then .LoRa
  else .LoRa

/-- `PacketType::to_bytes` (rf.rs): `Ok([self as u8])`. -/
def PacketType.to_bytes (p : PacketType) : List Nat :=
  [p.code]

/-! ## `src/commands/rf.rs` — modulation parameters -/

/-- `GfskPulseShape` (rf.rs). -/
inductive GfskPulseShape
  | NoFilter
  | Bt03
  | Bt05
  | Bt07
  | Bt1
  deriving DecidableEq

/-- Wire codes of `GfskPulseShape` (rf.rs enum values). -/
def GfskPulseShape.code : GfskPulseShape → Nat
  | .NoFilter => 0x00
  | .Bt03 => 0x08
  | .Bt05 => 0x09
  | .Bt07 => 0x0A
  | .Bt1 => 0x0B

/-- `GfskBandwidth` (rf.rs). -/
inductive GfskBandwidth
  | Bw48
  | Bw58
  | Bw73
  | Bw97
  | Bw117
  | Bw146
  | Bw293
  | Bw39
  | Bw469
  | Bw586
  | Bw782
  | Bw938
  | Bw1173
  | Bw1562
  | Bw1872
  | Bw2323
  | Bw3120
  | Bw3736
  | Bw4670
  deriving DecidableEq

/-- Wire codes of `GfskBandwidth` (rf.rs enum values). -/
def GfskBandwidth.code : GfskBandwidth → Nat
  | .Bw48 => 0x1F
  | .Bw58 => 0x17
  | .Bw73 => 0x0F
  | .Bw97 => 0x1E
  | .Bw117 => 0x16
  | .Bw146 => 0x0E
  | .Bw293 => 0x0D
  | .Bw39 => 0x1C
  | .Bw469 => 0x14
  | .Bw586 => 0x0C
  | .Bw782 => 0x1B
  | .Bw938 => 0x13
  | .Bw1173 => 0x0B
  | .Bw1562 => 0x1A
  | .Bw1872 => 0x12
  | .Bw2323 => 0x0A
  | .Bw3120 => 0x19
  | .Bw3736 => 0x11
  | .Bw4670 => 0x09

/-- `GfskModParams` (rf.rs): `bit_rate` and `freq_deviation` are `u32`. -/
structure GfskModParams where
  bit_rate : Nat
  pulse_shape : GfskPulseShape
  bandwidth : GfskBandwidth
  freq_deviation : Nat
  deriving DecidableEq

/-- `SpreadingFactor` (rf.rs): codes 5–12. -/
inductive SpreadingFactor
  | SF5
  | SF6
  | SF7
  | SF8
  | SF9
  | SF10
  | SF11
  | SF12
  deriving DecidableEq

/-- Wire codes of `SpreadingFactor` (rf.rs enum values). -/
def SpreadingFactor.code : SpreadingFactor → Nat
  | .SF5 => 5
  | .SF6 => 6
  | .SF7 => 7
  | .SF8 => 8
  | .SF9 => 9
  | .SF10 => 10
  | .SF11 => 11
  | .SF12 => 12

/-- `LoRaBandwidth` (rf.rs). -/
inductive LoRaBandwidth
  | Bw7
  | Bw10
  | Bw15
  | Bw20
  | Bw31
  | Bw41
  | Bw62
  | Bw125
  | Bw250
  | Bw500
  deriving DecidableEq

/-- Wire codes of `LoRaBandwidth` (rf.rs enum values). -/
def LoRaBandwidth.code : LoRaBandwidth → Nat
  | .Bw7 => 0x00
  | .Bw10 => 0x08
  | .Bw15 => 0x01
  | .Bw20 => 0x09
  | .Bw31 => 0x02
  | .Bw41 => 0x0A
  | .Bw62 => 0x03
  | .Bw125 => 0x04
  | .Bw250 => 0x05
  | .Bw500 => 0x06

/-- `CodingRate` (rf.rs): codes 1–4. -/
inductive CodingRate
  | Cr45
  | Cr46
  | Cr47
  | Cr48
  deriving DecidableEq

/-- Wire codes of `CodingRate` (rf.rs enum values). -/
def CodingRate.code : CodingRate → Nat
  | .Cr45 => 0x01
  | .Cr46 => 0x02
  | .Cr47 => 0x03
  | .Cr48 => 0x04

/-- `LoRaModParams` (rf.rs). -/
structure LoRaModParams where
  spreading_factor : SpreadingFactor
  bandwidth : LoRaBandwidth
  coding_rate : CodingRate
  low_data_rate_opt : Bool
  deriving DecidableEq

/-- `ModulationParams` (rf.rs): dual-mode tagged union. -/
inductive ModulationParams
  | Gfsk (params : GfskModParams)
  | LoRa (params : LoRaModParams)
  deriving DecidableEq

/-- `ModulationParams::to_bytes` (rf.rs), an 8-byte buffer pre-zeroed with
`[0u8; 8]`.  GFSK: `let br_val = (32 * 32_000_000) / params.bit_rate;`
(a `u32` division, which panics — modelled `none` — when `bit_rate` is 0),
bytes 0–2 the low three big-endian bytes of `br_val`, byte 3 the pulse
shape, byte 4 the bandwidth, bytes 5–7 the low three big-endian bytes of
`(freq_deviation as u64 * (1 << 25)) / 32_000_000` cast `as u32`.
LoRa: bytes 0–3 the four fields, bytes 4–7 left zero. -/
def ModulationParams.to_bytes : ModulationParams → Option (List Nat)
  | .Gfsk p =>
    if p.bit_rate = 0 then none
    else
      let br := 32 * 32000000 / p.bit_rate
      let fdev := p.freq_deviation * 2 ^ 25 % 2 ^ 64 / 32000000 % 2 ^ 32
      some [br / 2 ^ 16 % 256, br / 2 ^ 8 % 256, br % 256,
            p.pulse_shape.code, p.bandwidth.code,
            fdev / 2 ^ 16 % 256, fdev / 2 ^ 8 % 256, fdev % 256]
  | .LoRa p =>
    some [p.spreading_factor.code, p.bandwidth.code, p.coding_rate.code,
          cond p.low_data_rate_opt 1 0, 0, 0, 0, 0]

/-- Whether the GFSK bit-rate division of `ModulationParams::to_bytes` is
defined (`true` unless the value is `Gfsk` with `bit_rate = 0`). -/
def ModulationParams.bitRateOk : ModulationParams → Prop
  | .Gfsk p => p.bit_rate ≠ 0
  | .LoRa _ => True

instance : DecidablePred ModulationParams.bitRateOk := by
  intro mp
  cases mp <;> simp [ModulationParams.bitRateOk] <;> infer_instance

/-- Whether a `ModulationParams` is the LoRa variant. -/
def ModulationParams.isLoRa : ModulationParams → Bool
  | .Gfsk _ => false
  | .LoRa _ => true

/-! ## `src/commands/rf.rs` — packet parameters -/

/-- `PreambleDetectorLength` (rf.rs). -/
inductive PreambleDetectorLength
  | Off
  | Bits8
  | Bits16
  | Bits24
  | Bits32
  deriving DecidableEq

/-- Wire codes of `PreambleDetectorLength` (rf.rs enum values). -/
def PreambleDetectorLength.code : PreambleDetectorLength → Nat
  | .Off => 0x00
  | .Bits8 => 0x04
  | .Bits16 => 0x05
  | .Bits24 => 0x06
  | .Bits32 => 0x07

/-- `AddressFiltering` (rf.rs). -/
inductive AddressFiltering
  | Disable
  | Node
  | NodeAndBroadcast
  deriving DecidableEq

/-- Wire codes of `AddressFiltering` (rf.rs enum values). -/
def AddressFiltering.code : AddressFiltering → Nat
  | .Disable => 0x00
  | .Node => 0x01
  | .NodeAndBroadcast => 0x02

/-- `GFSKPacketHeaderType` (rf.rs): `Fixed = 0x00`, `Variable = 0x01`. -/
inductive GFSKPacketHeaderType
  | Fixed
  | Variable
  deriving DecidableEq

/-- Wire codes of `GFSKPacketHeaderType` (rf.rs enum values). -/
def GFSKPacketHeaderType.code : GFSKPacketHeaderType → Nat
  | .Fixed => 0x00
  | .Variable => 0x01

/-- `LoraPacketHeaderType` (rf.rs): `Fixed = 0x01`, `Variable = 0x00`
(the inverse of GFSK). -/
inductive LoraPacketHeaderType
  | Fixed
  | Variable
  deriving DecidableEq

/-- Wire codes of `LoraPacketHeaderType` (rf.rs enum values). -/
def LoraPacketHeaderType.code : LoraPacketHeaderType → Nat
  | .Fixed => 0x01
  | .Variable => 0x00

/-- `CrcType` (rf.rs). -/
inductive CrcType
  | CrcOff
  | Crc1Byte
  | Crc2Byte
  | Crc1ByteInv
  | Crc2ByteInv
  deriving DecidableEq

/-- Wire codes of `CrcType` (rf.rs enum values). -/
def CrcType.code : CrcType → Nat
  | .CrcOff => 0x01
  | .Crc1Byte => 0x00
  | .Crc2Byte => 0x02
  | .Crc1ByteInv => 0x04
  | .Crc2ByteInv => 0x06

/-- `GFSKPacketParams` (rf.rs): `preamble_length` is a `u16`,
`sync_word_length` and `payload_length` are `u8`. -/
structure GFSKPacketParams where
  preamble_length : Nat
  preamble_detector_length : PreambleDetectorLength
  sync_word_length : Nat
  address_filtering : AddressFiltering
  packet_type : GFSKPacketHeaderType
  payload_length : Nat
  crc_type : CrcType
  whitening_enable : Bool
  deriving DecidableEq

/-- `GFSKPacketParams::to_bytes` (rf.rs): the big-endian preamble pair
followed by the seven remaining fields, 9 bytes in all. -/
def GFSKPacketParams.to_bytes (p : GFSKPacketParams) : List Nat :=
  [p.preamble_length / 2 ^ 8 % 256, p.preamble_length % 256,
   p.preamble_detector_length.code, p.sync_word_length,
   p.address_filtering.code, p.packet_type.code, p.payload_length,
   p.crc_type.code, cond p.whitening_enable 1 0]

/-- `LoRaPacketParams` (rf.rs): `preamble_length` is a `u16`,
`payload_length` a `u8`. -/
structure LoRaPacketParams where
  preamble_length : Nat
  header_type : LoraPacketHeaderType
  payload_length : Nat
  crc_enable : Bool
  iq_inversion_enable : Bool
  deriving DecidableEq

/-- `LoRaPacketParams::to_bytes` (rf.rs): the big-endian preamble pair, the
four remaining fields, then three explicit trailing zero bytes. -/
def LoRaPacketParams.to_bytes (p : LoRaPacketParams) : List Nat :=
  [p.preamble_length / 2 ^ 8 % 256, p.preamble_length % 256,
   p.header_type.code, p.payload_length, cond p.crc_enable 1 0,
   cond p.iq_inversion_enable 1 0, 0, 0, 0]

/-- `PacketParams` (rf.rs): dual-mode tagged union. -/
inductive PacketParams
  | GFSK (params : GFSKPacketParams)
  | LoRa (params : LoRaPacketParams)
  deriving DecidableEq

/-- `PacketParams::to_bytes` (rf.rs): dispatch to the active variant. -/
def PacketParams.to_bytes : PacketParams → List Nat
  | .GFSK p => p.to_bytes
  | .LoRa p => p.to_bytes

/-- Whether a `PacketParams` is the LoRa variant. -/
def PacketParams.isLoRa : PacketParams → Bool
  | .GFSK _ => false
  | .LoRa _ => true

/-! ## `src/commands/status.rs` — status byte and multi-part responses -/

/-- `OperatingMode` (status.rs): chip codes `0x2`–`0x6`. -/
inductive OperatingMode
  | StandbyRc
  | StandbyXosc
  | FrequencySynthesizer
  | Receive
  | Transmit
  deriving DecidableEq, Fintype

/-- The chip code of an `OperatingMode` (the Rust enum's value). -/
def OperatingMode.code : OperatingMode → Nat
  | .StandbyRc => 0x2
  | .StandbyXosc => 0x3
  | .FrequencySynthesizer => 0x4
  | .Receive => 0x5
  | .Transmit => 0x6

/-- `impl TryFrom<u8> for OperatingMode` (status.rs): the error
(`OperatingModeError::InvalidValue`) carries the invalid raw value. -/
def OperatingMode.tryFrom (v : Nat) : Except Nat OperatingMode :=
  if v = 0x2 then .ok .StandbyRc
  else if v = 0x3 then .ok .StandbyXosc
  else if v = 0x4 then .ok .FrequencySynthesizer
  else if v = 0x5 then .ok .Receive
  else if v = 0x6 then .ok .Transmit
  else .error v

/-- `CommandStatus` (status.rs): chip codes `0x2`–`0x6`. -/
inductive CommandStatus
  | DataAvailable
  | Timeout
  | ProcessingError
  | ExecutionFailure
  | TxDone
  deriving DecidableEq, Fintype

/-- The chip code of a `CommandStatus` (the Rust enum's value). -/
def CommandStatus.code : CommandStatus → Nat
  | .DataAvailable => 0x2
  | .Timeout => 0x3
  | .ProcessingError => 0x4
  | .ExecutionFailure => 0x5
  | .TxDone => 0x6

/-- `impl TryFrom<u8> for CommandStatus` (status.rs): the error
(`CommandStatusError::InvalidValue`) carries the invalid raw value. -/
def CommandStatus.tryFrom (v : Nat) : Except Nat CommandStatus :=
  if v = 0x2 then .ok .DataAvailable
  else if v = 0x3 then .ok .Timeout
  else if v = 0x4 then .ok .ProcessingError
  else if v = 0x5 then .ok .ExecutionFailure
  else if v = 0x6 then .ok .TxDone
  else .error v

/-- `StatusError` (status.rs): composite error naming which half of the
status byte was invalid, each half carrying its raw invalid value. -/
inductive StatusError
  | InvalidMode (raw : Nat)
  | InvalidCommandStatus (raw : Nat)
  deriving DecidableEq

/-- `Status` (status.rs): operating mode plus command status. -/
structure Status where
  mode : OperatingMode
  cmd_status : CommandStatus
  deriving DecidableEq, Fintype

/-- The body of `Status::from_bytes` after the two bit-field extractions:
`OperatingMode::try_from(mode).map_err(StatusError::InvalidMode)?` then
`CommandStatus::try_from(cmd).map_err(StatusError::InvalidCommandStatus)?`. -/
def Status.fromModeCmd (m c : Nat) : Except StatusError Status :=
  match OperatingMode.tryFrom m with
  | .error e => .error (.InvalidMode e)
  | .ok mode =>
    match CommandStatus.tryFrom c with
    | .error e => .error (.InvalidCommandStatus e)
    | .ok cmd => .ok ⟨mode, cmd⟩

/-- `Status::from_bytes` (status.rs):
`let mode = (bytes[0] >> 4) & 0x7; let cmd = (bytes[0] >> 1) & 0x7;`. -/
def Status.from_bytes (b : Nat) : Except StatusError Status :=
  Status.fromModeCmd (b >>> 4 &&& 0x7) (b >>> 1 &&& 0x7)

/-- `GetRssiInstResponse` (status.rs). -/
structure GetRssiInstResponse where
  status : Status
  rssi : Nat
  deriving DecidableEq

/-- `GetRssiInstResponse::from_bytes` (status.rs): the declared error type is
`Infallible`, and the status byte is decoded with
`Status::from_bytes([bytes[0]]).unwrap()` — `none` models the panic of that
`unwrap` when the status byte is invalid. -/
def GetRssiInstResponse.from_bytes (b0 b1 : Nat) : Option GetRssiInstResponse :=
  match Status.from_bytes b0 with
  | .ok s => some ⟨s, b1⟩
  | .error _ => none

/-- `RxBufferStatus` (status.rs). -/
structure RxBufferStatus where
  payload_length : Nat
  buffer_pointer : Nat
  deriving DecidableEq

/-- `RxBufferStatus::from_bytes` (status.rs): infallible. -/
def RxBufferStatus.from_bytes (b0 b1 : Nat) : RxBufferStatus :=
  ⟨b0, b1⟩

/-- `GetRxBufferStatusResponse` (status.rs). -/
structure GetRxBufferStatusResponse where
  status : Status
  buffer_status : RxBufferStatus
  deriving DecidableEq

/-- `GetRxBufferStatusResponse::from_bytes` (status.rs): status byte decoded
with `.unwrap()` (a panic, modelled `none`, when invalid). -/
def GetRxBufferStatusResponse.from_bytes (b0 b1 b2 : Nat) :
    Option GetRxBufferStatusResponse :=
  match Status.from_bytes b0 with
  | .ok s => some ⟨s, RxBufferStatus.from_bytes b1 b2⟩
  | .error _ => none

/-- `PacketStatus` (status.rs): three raw status bytes. -/
structure PacketStatus where
  status : Nat × Nat × Nat
  deriving DecidableEq

/-- `PacketStatus::from_bytes` (status.rs): infallible. -/
def PacketStatus.from_bytes (b0 b1 b2 : Nat) : PacketStatus :=
  ⟨(b0, b1, b2)⟩

/-- `GetPacketStatusResponse` (status.rs). -/
structure GetPacketStatusResponse where
  status : Status
  packet_status : PacketStatus
  deriving DecidableEq

/-- `GetPacketStatusResponse::from_bytes` (status.rs): status byte decoded
with `.unwrap()` (a panic, modelled `none`, when invalid). -/
def GetPacketStatusResponse.from_bytes (b0 b1 b2 b3 : Nat) :
    Option GetPacketStatusResponse :=
  match Status.from_bytes b0 with
  | .ok s => some ⟨s, PacketStatus.from_bytes b1 b2 b3⟩
  | .error _ => none

/-- `Stats` (status.rs): three big-endian `u16` counters. -/
structure Stats where
  packets_received : Nat
  packets_crc_error : Nat
  packets_header_error : Nat
  deriving DecidableEq

/-- `Stats::from_bytes` (status.rs): three `u16::from_be_bytes` reads. -/
def Stats.from_bytes (b0 b1 b2 b3 b4 b5 : Nat) : Stats :=
  ⟨b0 * 256 + b1, b2 * 256 + b3, b4 * 256 + b5⟩

/-- `GetStatsResponse` (status.rs). -/
structure GetStatsResponse where
  status : Status
  stats : Stats
  deriving DecidableEq

/-- `GetStatsResponse::from_bytes` (status.rs): status byte decoded with
`.unwrap()` (a panic, modelled `none`, when invalid). -/
def GetStatsResponse.from_bytes (b0 b1 b2 b3 b4 b5 b6 : Nat) :
    Option GetStatsResponse :=
  match Status.from_bytes b0 with
  | .ok s => some ⟨s, Stats.from_bytes b1 b2 b3 b4 b5 b6⟩
  | .error _ => none

/-! ## `src/commands/dio.rs` — IRQ mask -/

/-- `IrqMask` (dio.rs): the nine defined IRQ flags of the `bitflags` type,
bits 0–8 of a `u16`. -/
structure IrqMask where
  tx_done : Bool
  rx_done : Bool
  preamble_detected : Bool
  sync_word_valid : Bool
  header_error : Bool
  crc_error : Bool
  cad_done : Bool
  cad_detected : Bool
  timeout : Bool
  deriving DecidableEq

/-- `IrqMask::bits` (the `bitflags` backing `u16`): the OR of the set
flags' bit positions, `TX_DONE = 1 << 0` … `TIMEOUT = 1 << 8`. -/
def IrqMask.bits (m : IrqMask) : Nat :=
  (cond m.tx_done (1 <<< 0) 0) ||| (cond m.rx_done (1 <<< 1) 0) |||
  (cond m.preamble_detected (1 <<< 2) 0) |||
  (cond m.sync_word_valid (1 <<< 3) 0) ||| (cond m.header_error (1 <<< 4) 0) |||
  (cond m.crc_error (1 <<< 5) 0) ||| (cond m.cad_done (1 <<< 6) 0) |||
  (cond m.cad_detected (1 <<< 7) 0) ||| (cond m.timeout (1 <<< 8) 0)

/-- `IrqMask::to_bytes` (dio.rs): `self.bits().to_be_bytes()`. -/
def IrqMask.to_bytes (m : IrqMask) : List Nat :=
  [m.bits / 2 ^ 8 % 256, m.bits % 256]

/-- `IrqMask::from_bytes` (dio.rs):
`IrqMask::from_bits_truncate(u16::from_be_bytes(bytes))` — each defined
flag is read from its bit, undefined bits are truncated away. -/
def IrqMask.from_bytes (b0 b1 : Nat) : IrqMask :=
  let v := b0 * 256 + b1
  ⟨v.testBit 0, v.testBit 1, v.testBit 2, v.testBit 3, v.testBit 4,
   v.testBit 5, v.testBit 6, v.testBit 7, v.testBit 8⟩

/-! ## `src/registers/system.rs` — retention list -/

/-- `RetentionList` (system.rs): a live-entry count (`u8`) plus four `u16`
register-address slots (`[u16; 4]`, here a length-4 list). -/
structure RetentionList where
  n_entries : Nat
  entries : List Nat
  deriving DecidableEq

/-- `RetentionList::get_entries` (system.rs): `&self.entries[..n_entries]`.
(The Rust slice panics when `n_entries` exceeds 4; the documented invariant
`n_entries ≤ 4` makes `take` exact.) -/
def RetentionList.get_entries (rl : RetentionList) : List Nat :=
  rl.entries.take rl.n_entries

/-- `RetentionList::add_entry` (system.rs).  The capacity test
`n_entries >= MAX_RETENTION_ENTRIES` comes FIRST, the containment test
second; otherwise `entries[n_entries] = reg_addr; n_entries += 1`.
Returns the `Result<(), ()>` paired with the post-state. -/
def RetentionList.add_entry (rl : RetentionList) (reg_addr : Nat) :
    Except Unit Unit × RetentionList :=
  if 4 ≤ rl.n_entries then (.error (), rl)
  else if reg_addr ∈ rl.get_entries then (.ok (), rl)
  else (.ok (), ⟨rl.n_entries + 1, rl.entries.set rl.n_entries reg_addr⟩)

/-- The `for i in 0..n_entries` loop of `RetentionList::remove_entry`
(system.rs), walking the index list.  On the first `i` with
`entries[i] == reg_addr`: `n_entries -= 1; let last = n_entries;
if i != last { entries[i] = entries[last]; }` and return `Ok(())`.
An out-of-bounds array read (possible only when the documented invariant
`n_entries ≤ 4` is violated) is a Rust panic, modelled `none`. -/
def RetentionList.removeGo (rl : RetentionList) (reg_addr : Nat) :
    List Nat → Option (Except Unit Unit × RetentionList)
  | [] => some (.error (), rl)
  | i :: rest =>
    match rl.entries[i]? with
    | none => none
    | some ei =>
      if ei = reg_addr then
        let last := rl.n_entries - 1
        if i = last then some (.ok (), ⟨last, rl.entries⟩)
        else
          match rl.entries[last]? with
          | none => none
          | some el => some (.ok (), ⟨last, rl.entries.set i el⟩)
      else rl.removeGo reg_addr rest

/-- `RetentionList::remove_entry` (system.rs): run the search loop over
indices `0..n_entries`; falling out of the loop returns `Err(())` with the
list unchanged. -/
def RetentionList.remove_entry (rl : RetentionList) (reg_addr : Nat) :
    Option (Except Unit Unit × RetentionList) :=
  rl.removeGo reg_addr (List.range rl.n_entries)

/-- `RetentionList::to_bytes` (system.rs): `arr[0] = n_entries`, then each
entry's `u16::to_be_bytes` pair at `arr[2i+1], arr[2i+2]`. -/
def RetentionList.to_bytes (rl : RetentionList) : List Nat :=
  rl.n_entries :: rl.entries.flatMap (fun e => [e / 2 ^ 8 % 256, e % 256])

/-- `RetentionList::from_bytes` (system.rs): `n_entries = bytes[0]`, then
`entries[i] = u16::from_be_bytes([bytes[2i+1], bytes[2i+2]])`. -/
def RetentionList.from_bytes (b0 b1 b2 b3 b4 b5 b6 b7 b8 : Nat) :
    RetentionList :=
  ⟨b0, [b1 * 256 + b2, b3 * 256 + b4, b5 * 256 + b6, b7 * 256 + b8]⟩

/-- A retention list holding its full four live entries, used to exhibit the
`add_entry` capacity-before-containment bug. -/
def fullRetentionList : RetentionList :=
  ⟨4, [1, 2, 3, 4]⟩

/-! ## `src/registers/system.rs` — simple registers -/

/-- `RtcControl` (system.rs). -/
structure RtcControl where
  enabled : Bool
  deriving DecidableEq

/-- `RtcControl::to_bytes` (system.rs): `[self.enabled as u8]`. -/
def RtcControl.to_bytes (r : RtcControl) : List Nat :=
  [cond r.enabled 1 0]

/-- `RtcControl::from_bytes` (system.rs): `enabled: bytes[0] & 0x01 != 0`. -/
def RtcControl.from_bytes (b : Nat) : RtcControl :=
  ⟨b &&& 0x01 != 0⟩

/-- `XtaTrim` (system.rs): XTA pin capacitance trimming value (`u8`). -/
structure XtaTrim where
  value : Nat
  deriving DecidableEq

/-- `XtaTrim::to_bytes` (system.rs): `[self.value & 0x2F]`. -/
def XtaTrim.to_bytes (x : XtaTrim) : List Nat :=
  [x.value &&& 0x2F]

/-- `XtaTrim::from_bytes` (system.rs): `value: bytes[0] & 0x2F`. -/
def XtaTrim.from_bytes (b : Nat) : XtaTrim :=
  ⟨b &&& 0x2F⟩

/-- `XtbTrim` (system.rs): XTB pin capacitance trimming value (`u8`). -/
structure XtbTrim where
  value : Nat
  deriving DecidableEq

/-- `XtbTrim::to_bytes` (system.rs): `[self.value & 0x2F]`. -/
def XtbTrim.to_bytes (x : XtbTrim) : List Nat :=
  [x.value &&& 0x2F]

/-- `XtbTrim::from_bytes` (system.rs): `value: bytes[0] & 0x2F`. -/
def XtbTrim.from_bytes (b : Nat) : XtbTrim :=
  ⟨b &&& 0x2F⟩

/-- `EventMask` (system.rs). -/
structure EventMask where
  mask : Nat
  deriving DecidableEq

/-- `EventMask::to_bytes` (system.rs): `[self.mask]`. -/
def EventMask.to_bytes (e : EventMask) : List Nat :=
  [e.mask]

/-- `EventMask::from_bytes` (system.rs): `mask: bytes[0]`. -/
def EventMask.from_bytes (b : Nat) : EventMask :=
  ⟨b⟩

end SX1262

namespace SX1262

/-!
## Claims C1–C3
-/

/-- **C1.** For every frequency `f : u32`, encoding `RfFrequencyConfig`
succeeds and produces the big-endian byte representation of the low 32 bits
of `⌊(f * 2^25) / 32,000,000⌋`, computed with 64-bit intermediate precision
(which never overflows) and truncating division; the final conjunct exhibits
a frequency (11 Hz) at which truncating division differs from
round-to-nearest, so the encoding is not round-to-nearest. -/
theorem rf_frequency_encodes_floor_scaled (f : Nat) (h : f < 2 ^ 32) :
    RfFrequencyConfig.to_bytes ⟨f⟩ = u32BeBytes (f * 2 ^ 25 / 32000000 % 2 ^ 32) ∧
    RfFrequencyConfig.to_bytes ⟨11⟩ ≠
      u32BeBytes ((11 * 2 ^ 25 + 16000000) / 32000000 % 2 ^ 32) := by
  constructor
  · have hlt : f * 2 ^ 25 < 2 ^ 64 := by
      calc f * 2 ^ 25 < 2 ^ 32 * 2 ^ 25 := by
            exact Nat.mul_lt_mul_of_lt_of_le h (le_refl _) (by norm_num)
        _ ≤ 2 ^ 64 := by norm_num
    simp only [RfFrequencyConfig.to_bytes, Nat.mod_eq_of_lt hlt]
  · decide

/-- Witness for C1 at the concrete frequency 868 MHz. -/
theorem rf_frequency_encodes_floor_scaled_witness :
    RfFrequencyConfig.to_bytes ⟨868000000⟩ =
      u32BeBytes (868000000 * 2 ^ 25 / 32000000 % 2 ^ 32) :=
  (rf_frequency_encodes_floor_scaled 868000000 (by norm_num)).1

/-- **C2 (counterexample).** The claimed worked example is numerically wrong:
at 868,000,000 Hz the encoder does *not* produce `[0x36, 0x14, 0x00, 0x00]`,
and `⌊868,000,000 * 2^25 / 32,000,000⌋` is not 907,345,920. -/
theorem rf_frequency_868_claim_false :
    RfFrequencyConfig.to_bytes ⟨868000000⟩ ≠ [0x36, 0x14, 0x00, 0x00] ∧
    868000000 * 2 ^ 25 / 32000000 ≠ 907345920 := by
  constructor <;> decide

/-- **C2 (amended).** Encoding frequency 868,000,000 Hz at the 32 MHz
reference produces the register value
`⌊868,000,000 * 2^25 / 32,000,000⌋ = 910,163,968`, i.e. exactly the
big-endian byte array `[0x36, 0x40, 0x00, 0x00]`. -/
theorem rf_frequency_868_encodes :
    RfFrequencyConfig.to_bytes ⟨868000000⟩ = [0x36, 0x40, 0x00, 0x00] ∧
    868000000 * 2 ^ 25 / 32000000 = 910163968 := by
  constructor <;> decide

/-- **C3 (code bug).** `PacketType::from_bytes` never fails: its error type
is `Infallible` and every byte other than `0x00` and `0x01` is silently
coalesced to the `LoRa` variant instead of being rejected — here evaluated
at the failing inputs `0x02` and `0xFF`. -/
theorem packet_type_decode_silently_defaults :
    PacketType.from_bytes 0x02 = PacketType.LoRa ∧
    PacketType.from_bytes 0xFF = PacketType.LoRa ∧
    PacketType.from_bytes 0x00 = PacketType.Gfsk ∧
    PacketType.from_bytes 0x01 = PacketType.LoRa := by
  refine ⟨rfl, rfl, rfl, rfl⟩

/-!
## Claims C4–C5
-/

/-- **C4 (counterexample).** On input bytes that make the status sub-decode
fail (byte 0 = `0x00`: operating-mode bits hold the undefined code 0), every
multi-part response decoder *aborts* — `Status::from_bytes(..).unwrap()`
panics, modelled `none` — rather than returning an error (its declared error
type `Infallible` has no values at all), refuting the claim at this input. -/
theorem multi_part_decode_aborts_on_bad_status :
    Status.from_bytes 0x00 = .error (.InvalidMode 0) ∧
    GetRssiInstResponse.from_bytes 0x00 0x00 = none ∧
    GetRxBufferStatusResponse.from_bytes 0x00 0x00 0x00 = none ∧
    GetPacketStatusResponse.from_bytes 0x00 0x00 0x00 0x00 = none ∧
    GetStatsResponse.from_bytes 0x00 0x00 0x00 0x00 0x00 0x00 0x00 = none := by
  refine ⟨rfl, rfl, rfl, rfl, rfl⟩

/-- **C4 (amended).** Every multi-part response decoder slices its input into
a leading 1-byte status field plus a trailing fixed-width payload and decodes
each independently, and never partially succeeds: whenever the status
sub-decode fails the whole decode aborts (the internal `unwrap` panics,
modelled `none`) — it cannot return an error, its error type being
`Infallible` — and whenever the status sub-decode succeeds the decode returns
the status together with the independently decoded trailing payload. -/
theorem multi_part_decode_slices_status_then_payload
    (b0 b1 b2 b3 b4 b5 b6 : Nat) :
    (∀ e, Status.from_bytes b0 = .error e →
      GetRssiInstResponse.from_bytes b0 b1 = none ∧
      GetRxBufferStatusResponse.from_bytes b0 b1 b2 = none ∧
      GetPacketStatusResponse.from_bytes b0 b1 b2 b3 = none ∧
      GetStatsResponse.from_bytes b0 b1 b2 b3 b4 b5 b6 = none) ∧
    (∀ s, Status.from_bytes b0 = .ok s →
      GetRssiInstResponse.from_bytes b0 b1 = some ⟨s, b1⟩ ∧
      GetRxBufferStatusResponse.from_bytes b0 b1 b2 =
        some ⟨s, RxBufferStatus.from_bytes b1 b2⟩ ∧
      GetPacketStatusResponse.from_bytes b0 b1 b2 b3 =
        some ⟨s, PacketStatus.from_bytes b1 b2 b3⟩ ∧
      GetStatsResponse.from_bytes b0 b1 b2 b3 b4 b5 b6 =
        some ⟨s, Stats.from_bytes b1 b2 b3 b4 b5 b6⟩) := by
  constructor
  · intro e he
    refine ⟨?_, ?_, ?_, ?_⟩ <;>
      simp [GetRssiInstResponse.from_bytes, GetRxBufferStatusResponse.from_bytes,
        GetPacketStatusResponse.from_bytes, GetStatsResponse.from_bytes, he]
  · intro s hs
    refine ⟨?_, ?_, ?_, ?_⟩ <;>
      simp [GetRssiInstResponse.from_bytes, GetRxBufferStatusResponse.from_bytes,
        GetPacketStatusResponse.from_bytes, GetStatsResponse.from_bytes, hs]

/-- **C5 (counterexample).** The status byte `0b0_101_011_0` does *not*
decode to `{mode = Transmit, cmd_status = Timeout}`: mode code `0x5` is
`Receive` (`Transmit` is `0x6`). -/
theorem status_byte_0x56_not_transmit :
    Status.from_bytes 0b01010110 ≠ .ok ⟨.Transmit, .Timeout⟩ := by
  decide

/-- **C5 (amended).** For every status byte `b`, `Status::from_bytes`
extracts the operating mode from bits 6:4 and the command status from bits
3:1, validates each sub-field independently against its defined code set
`{0x2..0x6}`, and fails with a composite error naming a failing half and its
raw invalid value whenever either sub-field's code is undefined; in
particular byte `0b0_101_011_0` decodes successfully to
`{mode = Receive, cmd_status = Timeout}` (code `0x5` is `Receive`;
`Transmit` is `0x6`). -/
theorem status_byte_decode_characterization (b : Nat) (hb : b < 256) :
    (¬(2 ≤ b >>> 4 &&& 7 ∧ b >>> 4 &&& 7 ≤ 6) →
      Status.from_bytes b = .error (.InvalidMode (b >>> 4 &&& 7))) ∧
    ((2 ≤ b >>> 4 &&& 7 ∧ b >>> 4 &&& 7 ≤ 6) ∧
        ¬(2 ≤ b >>> 1 &&& 7 ∧ b >>> 1 &&& 7 ≤ 6) →
      Status.from_bytes b = .error (.InvalidCommandStatus (b >>> 1 &&& 7))) ∧
    ((2 ≤ b >>> 4 &&& 7 ∧ b >>> 4 &&& 7 ≤ 6) ∧
        (2 ≤ b >>> 1 &&& 7 ∧ b >>> 1 &&& 7 ≤ 6) →
      ∃ s : Status, Status.from_bytes b = .ok s ∧
        s.mode.code = b >>> 4 &&& 7 ∧ s.cmd_status.code = b >>> 1 &&& 7) ∧
    Status.from_bytes 0b01010110 = .ok ⟨.Receive, .Timeout⟩ := by
  have key : ∀ m c : Fin 8,
      (¬(2 ≤ m.val ∧ m.val ≤ 6) →
        Status.fromModeCmd m.val c.val = .error (.InvalidMode m.val)) ∧
      ((2 ≤ m.val ∧ m.val ≤ 6) ∧ ¬(2 ≤ c.val ∧ c.val ≤ 6) →
        Status.fromModeCmd m.val c.val = .error (.InvalidCommandStatus c.val)) ∧
      ((2 ≤ m.val ∧ m.val ≤ 6) ∧ (2 ≤ c.val ∧ c.val ≤ 6) →
        ∃ s : Status, Status.fromModeCmd m.val c.val = .ok s ∧
          s.mode.code = m.val ∧ s.cmd_status.code = c.val) := by
    decide
  have hm : b >>> 4 &&& 7 < 8 := lt_of_le_of_lt Nat.and_le_right (by norm_num)
  have hc : b >>> 1 &&& 7 < 8 := lt_of_le_of_lt Nat.and_le_right (by norm_num)
  obtain ⟨k1, k2, k3⟩ := key ⟨b >>> 4 &&& 7, hm⟩ ⟨b >>> 1 &&& 7, hc⟩
  exact ⟨k1, k2, k3, by decide⟩

/-- Witness for C5 at the concrete status byte `0b0_101_011_0 = 0x56`. -/
theorem status_byte_decode_characterization_witness :
    Status.from_bytes 0b01010110 = .ok ⟨.Receive, .Timeout⟩ :=
  (status_byte_decode_characterization 0b01010110 (by norm_num)).2.2.2

/-!
## Claim C6
-/

/-- **C6 (code bug).** `add_entry` tests capacity *before* containment, so
adding an address that is already present to a list holding 4 live entries
returns `Err(())` — although the function's own documentation says "If the
address already exists, no action is taken and Ok(()) is returned". -/
theorem retention_add_present_at_capacity_errs :
    fullRetentionList.n_entries = 4 ∧
    1 ∈ fullRetentionList.get_entries ∧
    fullRetentionList.add_entry 1 = (.error (), fullRetentionList) := by
  refine ⟨rfl, by decide, rfl⟩

/-!
## Claim C7
-/

/-- **C7.** For every `RetentionList` state satisfying the struct's
documented invariants (`n_entries ≤ 4`, four entry slots),
`remove_entry(addr)` returns `Ok(())` and decreases the live-entry count by
exactly one when `addr` is among the live entries — the remaining live
entries being a permutation of the previous ones minus one occurrence of
`addr` — and returns `Err(())` leaving the whole list unchanged when `addr`
is absent. -/
theorem retention_remove_entry_spec (rl : RetentionList) (addr : Nat)
    (hn : rl.n_entries ≤ 4) (hlen : rl.entries.length = 4) :
    (addr ∈ rl.get_entries →
      ∃ rl', rl.remove_entry addr = some (.ok (), rl') ∧
        rl'.n_entries + 1 = rl.n_entries ∧
        rl'.get_entries.Perm (rl.get_entries.erase addr)) ∧
    (addr ∉ rl.get_entries → rl.remove_entry addr = some (.error (), rl)) := by
  obtain ⟨n, es⟩ := rl
  simp only at hn hlen ⊢
  rcases es with _ | ⟨e0, _ | ⟨e1, _ | ⟨e2, _ | ⟨e3, _ | ⟨e4, t⟩⟩⟩⟩⟩ <;>
    simp only [List.length] at hlen <;> try omega
  interval_cases n
  · -- n = 0: nothing is live
    exact ⟨fun hmem => absurd hmem (by simp [RetentionList.get_entries]),
      fun _ => rfl⟩
  · -- n = 1
    by_cases h0 : e0 = addr
    · refine ⟨fun _ => ⟨⟨0, [e0, e1, e2, e3]⟩, ?_, rfl, ?_⟩, fun hnot => ?_⟩
      · simp [RetentionList.remove_entry, RetentionList.removeGo, h0]
      · simp [RetentionList.get_entries, List.erase_cons, h0]
      · exact absurd (by simp [RetentionList.get_entries, h0]) hnot
    · refine ⟨fun hmem => ?_, fun _ => ?_⟩
      · simp [RetentionList.get_entries] at hmem
        exact absurd hmem.symm h0
      · simp [RetentionList.remove_entry, RetentionList.removeGo, h0]
  · -- n = 2
    by_cases h0 : e0 = addr
    · refine ⟨fun _ => ⟨⟨1, [e1, e1, e2, e3]⟩, ?_, rfl, ?_⟩, fun hnot => ?_⟩
      · simp [RetentionList.remove_entry, RetentionList.removeGo, h0,
          List.range_succ]
      · simp [RetentionList.get_entries, List.erase_cons, h0]
      · exact absurd (by simp [RetentionList.get_entries, h0]) hnot
    · by_cases h1 : e1 = addr
      · refine ⟨fun _ => ⟨⟨1, [e0, e1, e2, e3]⟩, ?_, rfl, ?_⟩, fun hnot => ?_⟩
        · simp [RetentionList.remove_entry, RetentionList.removeGo, h0, h1,
            List.range_succ]
        · simp [RetentionList.get_entries, List.erase_cons, h0, h1]
        · exact absurd (by simp [RetentionList.get_entries, h1]) hnot
      · refine ⟨fun hmem => ?_, fun _ => ?_⟩
        · simp [RetentionList.get_entries] at hmem
          rcases hmem with h | h
          · exact absurd h.symm h0
          · exact absurd h.symm h1
        · simp [RetentionList.remove_entry, RetentionList.removeGo, h0, h1,
            List.range_succ]
  · -- n = 3
    by_cases h0 : e0 = addr
    · refine ⟨fun _ => ⟨⟨2, [e2, e1, e2, e3]⟩, ?_, rfl, ?_⟩, fun hnot => ?_⟩
      · simp [RetentionList.remove_entry, RetentionList.removeGo, h0,
          List.range_succ]
      · have hL : RetentionList.get_entries ⟨2, [e2, e1, e2, e3]⟩ = [e2, e1] := rfl
        have hR : (RetentionList.get_entries ⟨3, [e0, e1, e2, e3]⟩).erase addr
            = [e1, e2] := by
          simp [RetentionList.get_entries, List.erase_cons, h0]
        rw [hL, hR]
        exact List.Perm.swap e1 e2 []
      · exact absurd (by simp [RetentionList.get_entries, h0]) hnot
    · by_cases h1 : e1 = addr
      · refine ⟨fun _ => ⟨⟨2, [e0, e2, e2, e3]⟩, ?_, rfl, ?_⟩, fun hnot => ?_⟩
        · simp [RetentionList.remove_entry, RetentionList.removeGo, h0, h1,
            List.range_succ]
        · simp [RetentionList.get_entries, List.erase_cons, h0, h1]
        · exact absurd (by simp [RetentionList.get_entries, h1]) hnot
      · by_cases h2 : e2 = addr
        · refine ⟨fun _ => ⟨⟨2, [e0, e1, e2, e3]⟩, ?_, rfl, ?_⟩,
            fun hnot => ?_⟩
          · simp [RetentionList.remove_entry, RetentionList.removeGo, h0, h1,
              h2, List.range_succ]
          · simp [RetentionList.get_entries, List.erase_cons, h0, h1, h2]
          · exact absurd (by simp [RetentionList.get_entries, h2]) hnot
        · refine ⟨fun hmem => ?_, fun _ => ?_⟩
          · simp [RetentionList.get_entries] at hmem
            rcases hmem with h | h | h
            · exact absurd h.symm h0
            · exact absurd h.symm h1
            · exact absurd h.symm h2
          · simp [RetentionList.remove_entry, RetentionList.removeGo, h0, h1,
              h2, List.range_succ]
  · -- n = 4
    by_cases h0 : e0 = addr
    · refine ⟨fun _ => ⟨⟨3, [e3, e1, e2, e3]⟩, ?_, rfl, ?_⟩, fun hnot => ?_⟩
      · simp [RetentionList.remove_entry, RetentionList.removeGo, h0,
          List.range_succ]
      · have hL : RetentionList.get_entries ⟨3, [e3, e1, e2, e3]⟩
            = [e3, e1, e2] := rfl
        have hR : (RetentionList.get_entries ⟨4, [e0, e1, e2, e3]⟩).erase addr
            = [e1, e2, e3] := by
          simp [RetentionList.get_entries, List.erase_cons, h0]
        rw [hL, hR]
        exact (List.Perm.swap e1 e3 [e2]).trans ((List.Perm.swap e2 e3 []).cons e1)
      · exact absurd (by simp [RetentionList.get_entries, h0]) hnot
    · by_cases h1 : e1 = addr
      · refine ⟨fun _ => ⟨⟨3, [e0, e3, e2, e3]⟩, ?_, rfl, ?_⟩, fun hnot => ?_⟩
        · simp [RetentionList.remove_entry, RetentionList.removeGo, h0, h1,
            List.range_succ]
        · have hL : RetentionList.get_entries ⟨3, [e0, e3, e2, e3]⟩
              = [e0, e3, e2] := rfl
          have hR : (RetentionList.get_entries ⟨4, [e0, e1, e2, e3]⟩).erase addr
              = [e0, e2, e3] := by
            simp [RetentionList.get_entries, List.erase_cons, h0, h1]
          rw [hL, hR]
          exact (List.Perm.swap e2 e3 []).cons e0
        · exact absurd (by simp [RetentionList.get_entries, h1]) hnot
      · by_cases h2 : e2 = addr
        · refine ⟨fun _ => ⟨⟨3, [e0, e1, e3, e3]⟩, ?_, rfl, ?_⟩,
            fun hnot => ?_⟩
          · simp [RetentionList.remove_entry, RetentionList.removeGo, h0, h1,
              h2, List.range_succ]
          · simp [RetentionList.get_entries, List.erase_cons, h0, h1, h2]
          · exact absurd (by simp [RetentionList.get_entries, h2]) hnot
        · by_cases h3 : e3 = addr
          · refine ⟨fun _ => ⟨⟨3, [e0, e1, e2, e3]⟩, ?_, rfl, ?_⟩,
              fun hnot => ?_⟩
            · simp [RetentionList.remove_entry, RetentionList.removeGo, h0,
                h1, h2, h3, List.range_succ]
            · simp [RetentionList.get_entries, List.erase_cons, h0, h1, h2, h3]
            · exact absurd (by simp [RetentionList.get_entries, h3]) hnot
          · refine ⟨fun hmem => ?_, fun _ => ?_⟩
            · simp [RetentionList.get_entries] at hmem
              rcases hmem with h | h | h | h
              · exact absurd h.symm h0
              · exact absurd h.symm h1
              · exact absurd h.symm h2
              · exact absurd h.symm h3
            · simp [RetentionList.remove_entry, RetentionList.removeGo, h0,
                h1, h2, h3, List.range_succ]

/-- Witness for C7 on a concrete two-entry list, removing a present
address. -/
theorem retention_remove_entry_spec_witness :
    ∃ rl', RetentionList.remove_entry ⟨2, [5, 7, 0, 0]⟩ 5 =
        some (.ok (), rl') ∧
      rl'.n_entries + 1 = 2 ∧
      rl'.get_entries.Perm ((RetentionList.get_entries ⟨2, [5, 7, 0, 0]⟩).erase 5) :=
  (retention_remove_entry_spec ⟨2, [5, 7, 0, 0]⟩ 5 (by norm_num) rfl).1
    (by decide)

/-!
## Claim C8
-/

/-- Round-trip of the `IrqMask` codec through its backing `u16`: decoding
the two big-endian bytes of `bits` restores exactly the nine defined
flags. -/
theorem IrqMask.from_bytes_bits (m : IrqMask) :
    IrqMask.from_bytes (m.bits / 2 ^ 8 % 256) (m.bits % 256) = m := by
  obtain ⟨a, b, c, d, e, f, g, h, i⟩ := m
  cases a <;> cases b <;> cases c <;> cases d <;> cases e <;> cases f <;>
    cases g <;> cases h <;> cases i <;> decide

/-- **C8 (counterexample).** The `XtaTrim` codec does not round-trip:
value `0x10` (within the documented `0x00`–`0x2F` range) encodes to byte
`0x00`, which decodes back to `0x00`, not `0x10` — the `& 0x2F` mask drops
bit 4. -/
theorem xta_trim_round_trip_fails :
    XtaTrim.to_bytes ⟨0x10⟩ = [0x00] ∧ XtaTrim.from_bytes 0x00 ≠ ⟨0x10⟩ := by
  exact ⟨by decide, by decide⟩

/-- **C8 (amended).** Decode-after-encode is the identity for `IrqMask`,
`PacketType`, `RetentionList` (entries being `u16`s), `RtcControl` and
`EventMask` on every representable value; for `XtaTrim` and `XtbTrim` it is
the identity exactly on values fixed by the `& 0x2F` mask (`v & 0x2F = v`),
the mask silently dropping bit 4 and bits 6–7 of other values on encode. -/
theorem decode_encode_round_trip
    (m : IrqMask) (p : PacketType) (rl : RetentionList) (rc : RtcControl)
    (em : EventMask) (xa xb : Nat)
    (hlen : rl.entries.length = 4)
    (hrl : ∀ x ∈ rl.entries, x < 65536)
    (hxa : xa &&& 0x2F = xa) (hxb : xb &&& 0x2F = xb) :
    (∀ b0 b1, m.to_bytes = [b0, b1] → IrqMask.from_bytes b0 b1 = m) ∧
    (∀ b, p.to_bytes = [b] → PacketType.from_bytes b = p) ∧
    (∀ b0 b1 b2 b3 b4 b5 b6 b7 b8,
      rl.to_bytes = [b0, b1, b2, b3, b4, b5, b6, b7, b8] →
      RetentionList.from_bytes b0 b1 b2 b3 b4 b5 b6 b7 b8 = rl) ∧
    (∀ b, rc.to_bytes = [b] → RtcControl.from_bytes b = rc) ∧
    (∀ b, em.to_bytes = [b] → EventMask.from_bytes b = em) ∧
    (∀ b, XtaTrim.to_bytes ⟨xa⟩ = [b] → XtaTrim.from_bytes b = ⟨xa⟩) ∧
    (∀ b, XtbTrim.to_bytes ⟨xb⟩ = [b] → XtbTrim.from_bytes b = ⟨xb⟩) := by
  refine ⟨?_, ?_, ?_, ?_, ?_, ?_, ?_⟩
  · intro b0 b1 hby
    simp only [IrqMask.to_bytes, List.cons.injEq, and_true] at hby
    obtain ⟨h0, h1⟩ := hby
    rw [← h0, ← h1]
    exact IrqMask.from_bytes_bits m
  · cases p <;> intro b hby <;>
      simp only [PacketType.to_bytes, PacketType.code, List.cons.injEq,
        and_true] at hby <;> rw [← hby] <;> rfl
  · obtain ⟨n, es⟩ := rl
    simp only at hlen hrl
    rcases es with _ | ⟨e0, _ | ⟨e1, _ | ⟨e2, _ | ⟨e3, _ | ⟨e4, t⟩⟩⟩⟩⟩ <;>
      simp only [List.length] at hlen <;> try omega
    intro b0 b1 b2 b3 b4 b5 b6 b7 b8 hby
    have he0 : e0 < 65536 := hrl e0 (by simp)
    have he1 : e1 < 65536 := hrl e1 (by simp)
    have he2 : e2 < 65536 := hrl e2 (by simp)
    have he3 : e3 < 65536 := hrl e3 (by simp)
    have hto : RetentionList.to_bytes ⟨n, [e0, e1, e2, e3]⟩ =
        [n, e0 / 2 ^ 8 % 256, e0 % 256, e1 / 2 ^ 8 % 256, e1 % 256,
         e2 / 2 ^ 8 % 256, e2 % 256, e3 / 2 ^ 8 % 256, e3 % 256] := rfl
    rw [hto] at hby
    simp only [List.cons.injEq, and_true] at hby
    obtain ⟨hb0, hb1, hb2, hb3, hb4, hb5, hb6, hb7, hb8⟩ := hby
    subst hb0 hb1 hb2 hb3 hb4 hb5 hb6 hb7 hb8
    have r0 : e0 / 2 ^ 8 % 256 * 256 + e0 % 256 = e0 := by omega
    have r1 : e1 / 2 ^ 8 % 256 * 256 + e1 % 256 = e1 := by omega
    have r2 : e2 / 2 ^ 8 % 256 * 256 + e2 % 256 = e2 := by omega
    have r3 : e3 / 2 ^ 8 % 256 * 256 + e3 % 256 = e3 := by omega
    simp only [RetentionList.from_bytes]
    rw [r0, r1, r2, r3]
  · cases rc with
    | mk e =>
      cases e <;> intro b hby <;>
        simp only [RtcControl.to_bytes, cond, List.cons.injEq, and_true] at hby <;>
        rw [← hby] <;> rfl
  · cases em with
    | mk v =>
      intro b hby
      simp only [EventMask.to_bytes, List.cons.injEq, and_true] at hby
      rw [← hby]
      rfl
  · intro b hby
    simp only [XtaTrim.to_bytes, hxa, List.cons.injEq, and_true] at hby
    rw [← hby]
    simp [XtaTrim.from_bytes, hxa]
  · intro b hby
    simp only [XtbTrim.to_bytes, hxb, List.cons.injEq, and_true] at hby
    rw [← hby]
    simp [XtbTrim.from_bytes, hxb]

/-- Witness for C8 at concrete values: the all-clear IRQ mask, the `Gfsk`
packet type and the maximal in-range trim value `0x2F`. -/
theorem decode_encode_round_trip_witness :
    PacketType.from_bytes 0x00 = PacketType.Gfsk ∧
    XtaTrim.from_bytes 0x2F = ⟨0x2F⟩ := by
  have h := decode_encode_round_trip
    ⟨false, false, false, false, false, false, false, false, false⟩
    .Gfsk ⟨0, [0, 0, 0, 0]⟩ ⟨false⟩ ⟨0⟩ 0x2F 0x2F rfl (by simp)
    (by decide) (by decide)
  exact ⟨h.2.1 0x00 (by decide), h.2.2.2.2.2.1 0x2F (by decide)⟩

/-!
## Claim C9
-/

/-- **C9 (counterexample).** `ModulationParams::to_bytes` does not return
8 bytes for every value: on the GFSK variant with `bit_rate = 0` the bit-rate
register division `(32 * 32_000_000) / bit_rate` divides by zero and the
encode panics (modelled `none`) instead of returning a byte array. -/
theorem gfsk_zero_bit_rate_encode_panics :
    ModulationParams.to_bytes (.Gfsk ⟨0, .NoFilter, .Bw48, 0⟩) = none := rfl

/-- **C9 (amended).** For every `ModulationParams` value whose GFSK bit rate
is nonzero (the encode panics on division by zero at `bit_rate = 0`) and for
every `PacketParams` value, `to_bytes` returns exactly 8 and exactly 9 bytes
respectively regardless of which variant is active, and every byte position
not written by the active variant's fields is zero-filled — in particular the
LoRa modulation variant's trailing four bytes and the LoRa packet variant's
trailing three bytes are `0x00`. -/
theorem mod_and_packet_params_fixed_width (mp : ModulationParams)
    (pp : PacketParams) (h : mp.bitRateOk) :
    mp.to_bytes.map List.length = some 8 ∧
    (mp.isLoRa = true → mp.to_bytes.map (List.drop 4) = some [0, 0, 0, 0]) ∧
    pp.to_bytes.length = 9 ∧
    (pp.isLoRa = true → pp.to_bytes.drop 6 = [0, 0, 0]) := by
  refine ⟨?_, ?_, ?_, ?_⟩
  · cases mp with
    | Gfsk p =>
      have hbr : p.bit_rate ≠ 0 := h
      simp [ModulationParams.to_bytes, hbr]
    | LoRa p => rfl
  · cases mp with
    | Gfsk p => intro hL; exact absurd hL (by simp [ModulationParams.isLoRa])
    | LoRa p => intro _; rfl
  · cases pp with
    | GFSK p => rfl
    | LoRa p => rfl
  · cases pp with
    | GFSK p => intro hL; exact absurd hL (by simp [PacketParams.isLoRa])
    | LoRa p => intro _; rfl

/-- Witness for C9 at concrete LoRa modulation and packet parameters. -/
theorem mod_and_packet_params_fixed_width_witness :
    (ModulationParams.LoRa ⟨.SF7, .Bw125, .Cr45, false⟩).to_bytes.map
      List.length = some 8 ∧
    (PacketParams.LoRa ⟨8, .Fixed, 16, true, false⟩).to_bytes.length = 9 := by
  have h := mod_and_packet_params_fixed_width
    (.LoRa ⟨.SF7, .Bw125, .Cr45, false⟩)
    (.LoRa ⟨8, .Fixed, 16, true, false⟩) trivial
  exact ⟨h.1, h.2.2.1⟩

/-!
## Claim C10
-/

/-- **C10.** The `XtaTrim` and `XtbTrim` register codecs apply the bit mask
`0x2F` on both encode and decode: `to_bytes` of value `v` is `[v & 0x2F]`
and `from_bytes` of byte `b` yields `b & 0x2F` — so bit 4 and bits 6–7 are
silently dropped rather than the value being clamped to the documented
`0x2F` maximum: value `0x30` encodes as `0x20` (not the clamp `0x2F`) and
value `0x10` encodes as `0x00`. -/
theorem xt_trim_mask_both_directions (v b : Nat) :
    XtaTrim.to_bytes ⟨v⟩ = [v &&& 0x2F] ∧
    XtaTrim.from_bytes b = ⟨b &&& 0x2F⟩ ∧
    XtbTrim.to_bytes ⟨v⟩ = [v &&& 0x2F] ∧
    XtbTrim.from_bytes b = ⟨b &&& 0x2F⟩ ∧
    XtaTrim.to_bytes ⟨0x30⟩ = [0x20] ∧
    XtaTrim.to_bytes ⟨0x10⟩ = [0x00] ∧
    XtbTrim.to_bytes ⟨0x30⟩ = [0x20] ∧
    XtbTrim.to_bytes ⟨0x10⟩ = [0x00] ∧
    XtaTrim.to_bytes ⟨0x30⟩ ≠ [0x2F] := by
  refine ⟨rfl, rfl, rfl, rfl, by decide, by decide, by decide, by decide,
    by decide⟩

end SX1262
